import Mathlib

/-
Shallow embedding of the postgrest-go query compiler.

Sources embedded here:
- BuildQuery and its helpers (splitSelectFields, singularize, columnExists,
  isRelatedResource, parseJoins, parseParenthesesJoin, extractEmbeddedRelations,
  applyJoin) from the main query-builder file;
- the search-path statement built inside HandleSelect from the HTTP handler file.

Database access (pgx QueryRow against information_schema) is modelled by an
oracle of type SchemaLookup: `some b` means the lookup succeeded and returned b,
`none` means the lookup failed with an error.  Go map iteration order over
url.Values is unspecified; the embedding fixes the order by taking the incoming
parameters as an ordered association list.  goqu dataset state is modelled as an
explicit QueryState record instead of opaque builder calls.
-/

set_option maxRecDepth 4000

namespace TenantRest

/-- Oracle for information_schema.columns lookups made by columnExists.
`lookup table column = some b` models a successful query returning b;
`none` models a query error. -/
abbrev SchemaLookup := String → String → Option Bool

/-- Request query parameters, modelled as an ordered association list
standing in for Go url.Values (map iteration order fixed by list order). -/
abbrev Params := List (String × List String)

/-- Character class of Go regexp word characters: [0-9A-Za-z_]. -/
def isWordChar (c : Char) : Bool := c.isAlphanum || c = '_'

/-- Whitespace recognized by Go strings.TrimSpace (ASCII part of unicode.IsSpace). -/
def goIsSpace (c : Char) : Bool :=
  c = ' ' || c = '\t' || c = '\n' || c = '\x0b' || c = '\x0c' || c = '\r'

/-- Go strings.TrimSpace. -/
def trimSpace (s : String) : String :=
  ⟨((s.data.dropWhile goIsSpace).reverse.dropWhile goIsSpace).reverse⟩

/-- Go strings.Contains for a single-character substring. -/
def strContains (s : String) (c : Char) : Bool := decide (c ∈ s.data)

/-- List-level helper: does the first list start with the second one. -/
def listStartsWith : List Char → List Char → Bool
  | _, [] => true
  | [], _ :: _ => false
  | a :: as, b :: bs => a = b && listStartsWith as bs

/-- Go strings.HasPrefix. -/
def goHasPre (s pre : String) : Bool := listStartsWith s.data pre.data

/-- Go strings.HasSuffix. -/
def strEndsWith (s suffix : String) : Bool :=
  listStartsWith s.data.reverse suffix.data.reverse

/-- Go strings.Split with a one-character separator.  Split("", sep) = [""],
matching Go. -/
def splitOnChar (sep : Char) : List Char → List (List Char)
  | [] => [[]]
  | c :: rest =>
    let r := splitOnChar sep rest
    if c = sep then [] :: r
    else
      match r with
      | [] => [[c]]
      | h :: t => (c :: h) :: t

/-- Go strings.SplitN(s, sep, 2) for a one-character separator, in the form the
callers use it: `none` when the separator does not occur (Go returns a
one-element slice and every caller then skips), `some (before, after)` when it
splits at the first occurrence. -/
def breakAtChar (sep : Char) : List Char → Option (List Char × List Char)
  | [] => none
  | c :: rest =>
    if c = sep then some ([], rest)
    else
      match breakAtChar sep rest with
      | none => none
      | some (a, b) => some (c :: a, b)

/-- Go strings.Join(elems, ","). -/
def joinWithComma : List String → String
  | [] => ""
  | [x] => x
  | x :: y :: rest => x ++ "," ++ joinWithComma (y :: rest)

/-- List-of-characters version of joining with a comma, used to reason about
joinWithComma and splitSelectFields. -/
def joinCommaL : List (List Char) → List Char
  | [] => []
  | [x] => x
  | x :: y :: rest => x ++ ',' :: joinCommaL (y :: rest)

/-- Digit accumulator for goAtoi. -/
def parseDigitsAux : List Char → Nat → Option Nat
  | [], acc => some acc
  | c :: rest, acc =>
    if c.isDigit then parseDigitsAux rest (acc * 10 + (c.toNat - 48)) else none

/-- Go strconv.Atoi on a 64-bit platform: optional sign, one or more ASCII
digits, error (none) on anything else or on int64 overflow. -/
def goAtoi (s : String) : Option Int :=
  match s.data with
  | [] => none
  | '+' :: rest =>
    match rest with
    | [] => none
    | _ =>
      (parseDigitsAux rest 0).bind fun n =>
        if n ≤ 9223372036854775807 then some (Int.ofNat n) else none
  | '-' :: rest =>
    match rest with
    | [] => none
    | _ =>
      (parseDigitsAux rest 0).bind fun n =>
        if n ≤ 9223372036854775808 then some (-(Int.ofNat n)) else none
  | l =>
    (parseDigitsAux l 0).bind fun n =>
      if n ≤ 9223372036854775807 then some (Int.ofNat n) else none

/-- Go uint(n) conversion of a 64-bit int: two's-complement wraparound. -/
def goUint (n : Int) : Nat := (n % (18446744073709551616 : Int)).toNat

/-- Depth update of splitSelectFields for one character: opening parenthesis
increments, closing parenthesis decrements when positive, everything else
leaves the depth unchanged. -/
def stepDepth (r : Char) (depth : Nat) : Nat :=
  if r = '(' then depth + 1
  else if r = ')' ∧ 0 < depth then depth - 1
  else depth

/-- Loop of splitSelectFields: a comma at depth zero flushes the current field
and is consumed; every other character is appended to the current field after
the depth update; a nonempty trailing field is flushed at the end. -/
def splitFieldsAux : List Char → List Char → Nat → List (List Char)
  | [], cur, _ => if cur = [] then [] else [cur]
  | r :: rest, cur, depth =>
    if r = ',' ∧ depth = 0 then cur :: splitFieldsAux rest [] 0
    else splitFieldsAux rest (cur ++ [r]) (stepDepth r depth)

/-- splitSelectFields: split top-level comma-separated select fields, keeping
parenthesis groups intact. -/
def splitSelectFields (s : String) : List String :=
  (splitFieldsAux s.data [] 0).map fun l => (⟨l⟩ : String)

/-- Does the string end with a comma that sits at parenthesis depth zero
(the one case in which splitSelectFields drops a character)? -/
def endsTopComma : List Char → Nat → Bool
  | [], _ => false
  | [r], d => decide (r = ',' ∧ d = 0)
  | r :: s :: rest, d => endsTopComma (s :: rest) (stepDepth r d)

/-- singularize: naive singular form of a plural table name
(trailing "ies" becomes "y", otherwise a trailing "s" is stripped). -/
def singularize (name : String) : String :=
  if strEndsWith name "ies" then (⟨(name.data.reverse.drop 3).reverse⟩ : String) ++ "y"
  else if strEndsWith name "s" then ⟨(name.data.reverse.drop 1).reverse⟩
  else name

/-- columnExists: information_schema lookup; on a query error the code assumes
the column does not exist and returns false. -/
def columnExists (db : SchemaLookup) (table column : String) : Bool :=
  match db table column with
  | some b => b
  | none => false

/-- Semantics of the Go regexp match for the anchored embed pattern: the string
must be a nonempty run of word characters, immediately followed by an opening
parenthesis, with a closing parenthesis as the very last character; the capture
groups are the word prefix and the middle text (which, being matched by dot,
may not contain a newline). -/
def embedMatch (l : List Char) : Option (List Char × List Char) :=
  let w := l.takeWhile isWordChar
  if w = [] then none
  else
    match l.drop w.length with
    | '(' :: rest =>
      match rest.reverse with
      | ')' :: midRev =>
        let mid := midRev.reverse
        if decide ('\n' ∈ mid) then none else some (w, mid)
      | _ => none
    | _ => none

/-- Child-column extraction of BuildQuery for an embed: the captured middle
text is split on every comma by strings.Split (no depth tracking) and each
fragment is trimmed; an empty middle text yields no columns. -/
def childCols (colsStr : String) : List String :=
  if colsStr = "" then []
  else (splitOnChar ',' colsStr.data).map fun l => trimSpace ⟨l⟩

/-- Column list of the one-to-many subquery: "*" when no columns were listed,
otherwise the columns joined with commas. -/
def colListOf (cols : List String) : String :=
  if cols = [] then "*" else joinWithComma cols

/-- SQL text of the many-to-one correlated subquery built by BuildQuery
(fmt.Sprintf with arguments relTable, relTable, relTable, table, fk, relTable). -/
def manyToOneSub (table relTable fk : String) : String :=
  "(SELECT row_to_json(" ++ relTable ++ ".*) FROM " ++ relTable ++ " WHERE " ++
    relTable ++ ".id = " ++ table ++ "." ++ fk ++ " LIMIT 1) AS " ++ relTable

/-- SQL text of the one-to-many correlated subquery built by BuildQuery
(fmt.Sprintf with arguments colList, relTable, relTable, fk, table, relTable). -/
def oneToManySub (colList table relTable fk : String) : String :=
  "(SELECT COALESCE(json_agg(row_to_json(arr)), \x27[]\x27::json) FROM (SELECT " ++
    colList ++ " FROM " ++ relTable ++ " WHERE " ++ relTable ++ "." ++ fk ++ " = " ++
    table ++ ".id) arr) AS " ++ relTable

/-- Embed compilation of BuildQuery: singularize both table names, probe the
parent table for the many-to-one foreign key, and emit the corresponding
correlated subquery text. -/
def compileEmbed (db : SchemaLookup) (table relTable : String) (cols : List String) : String :=
  let mainSingular := singularize table
  let relSingular := singularize relTable
  let manyToOneFK := relSingular ++ "_id"
  let oneToManyFK := mainSingular ++ "_id"
  let colList := colListOf cols
  if columnExists db table manyToOneFK then manyToOneSub table relTable manyToOneFK
  else oneToManySub colList table relTable oneToManyFK

/-- One select-list entry of the goqu dataset as BuildQuery assembles it. -/
inductive SelectItem where
  /-- goqu.C(name): a plain identifier column reference. -/
  | column (name : String)
  /-- goqu.L(sql): a literal SQL fragment, used for embed subqueries. -/
  | subquery (sql : String)
  /-- goqu.T(table).Col(col): a table-qualified column appended by applyJoin. -/
  | joinColumn (table col : String)
  /-- goqu.T(table).All(): table.* appended by applyJoin. -/
  | joinAll (table : String)
  deriving DecidableEq

/-- Field recognition of BuildQuery for one select field: trim, require both
parentheses to occur, then run the anchored embed regexp; on success the embed
(related table, middle text) is returned, otherwise the field is no embed. -/
def parseEmbedField (f : String) : Option (String × String) :=
  let g := trimSpace f
  if strContains g '(' && strContains g ')' then
    match embedMatch g.data with
    | some (w, mid) => some (⟨w⟩, ⟨mid⟩)
    | none => none
  else none

/-- Compilation of one select field by BuildQuery: an embed becomes a literal
subquery, everything else becomes a plain column of the trimmed field text. -/
def compileSelectField (db : SchemaLookup) (table f : String) : SelectItem :=
  match parseEmbedField f with
  | some (rel, mid) => SelectItem.subquery (compileEmbed db table rel (childCols mid))
  | none => SelectItem.column (trimSpace f)

/-- Select-list construction of BuildQuery: an absent select parameter, or an
empty compiled list, selects star. -/
def buildSelectItems (db : SchemaLookup) (table s : String) : List SelectItem :=
  if s = "" then [SelectItem.column "*"]
  else
    let items := (splitSelectFields s).map (compileSelectField db table)
    if items = [] then [SelectItem.column "*"] else items

/-- One WHERE condition of the goqu dataset. -/
inductive FilterCond where
  /-- col.Eq(v) -/
  | ceq (col v : String)
  /-- col.Gt(v) -/
  | cgt (col v : String)
  /-- col.Lt(v) -/
  | clt (col v : String)
  /-- col.Gte(v) -/
  | cgte (col v : String)
  /-- col.Lte(v) -/
  | clte (col v : String)
  /-- col.Like(v) -/
  | clike (col v : String)
  /-- col.In(values), the operand split on commas -/
  | cin (col : String) (vs : List String)
  deriving DecidableEq

/-- The operator switch of the filter loop: the seven supported operators build
a condition, every other operator builds nothing (the switch has no default). -/
def filterCondFor (key op v : String) : Option FilterCond :=
  if op = "eq" then some (.ceq key v)
  else if op = "gt" then some (.cgt key v)
  else if op = "lt" then some (.clt key v)
  else if op = "gte" then some (.cgte key v)
  else if op = "lte" then some (.clte key v)
  else if op = "like" then some (.clike key v)
  else if op = "in" then
    some (.cin key ((splitOnChar ',' v.data).map fun l => (⟨l⟩ : String)))
  else none

/-- isRelatedResource: a key is a related resource when some parameter key
has the form key.something. -/
def isRelatedResource (key : String) (ps : Params) : Bool :=
  ps.any fun p => goHasPre p.fst (key ++ ".")

/-- Skip conditions of the filter loop in BuildQuery: reserved parameter names,
dotted keys, parenthesized keys, and related-resource keys are not filters. -/
def skipFilterKey (ps : Params) (key : String) : Bool :=
  key = "select" || key = "order" || key = "limit" || key = "offset" ||
    strContains key '.' || strContains key '(' || isRelatedResource key ps

/-- url.Values.Get: first value of the key, empty string when absent. -/
def getParam (ps : Params) (k : String) : String :=
  match ps.find? (fun p => p.fst = k) with
  | some (_, v :: _) => v
  | _ => ""

/-- The WHERE-building loop of BuildQuery over all query parameters, in list
order (Go iterates the url.Values map in unspecified order). -/
def collectFilters (ps : Params) : List FilterCond :=
  ps.foldl
    (fun acc p =>
      if skipFilterKey ps p.fst then acc
      else
        match p.snd with
        | [] => acc
        | v :: _ =>
          match breakAtChar '.' v.data with
          | none => acc
          | some (a, b) =>
            match filterCondFor p.fst ⟨a⟩ ⟨b⟩ with
            | some c => acc ++ [c]
            | none => acc)
    []

/-- JoinConfig of the Go code (the fields parseJoins actually populates). -/
structure JoinConfig where
  table : String
  onLeft : String
  onRight : String
  columns : List String
  deriving DecidableEq

/-- filterOperators set of parseJoins. -/
def filterOperator (s : String) : Bool :=
  s = "eq" || s = "gt" || s = "lt" || s = "gte" || s = "lte" || s = "like" || s = "in"

/-- parseParenthesesJoin: the same anchored regexp as the embed match; on
success the join carries the parsed columns (trimmed) and the inferred keys
table_id / id. -/
def parseParenthesesJoin (param : String) : Option JoinConfig :=
  match embedMatch param.data with
  | none => none
  | some (w, mid) =>
    let tableName : String := ⟨w⟩
    let cols : List String :=
      if (⟨mid⟩ : String) = "" then []
      else (splitOnChar ',' mid).map fun l => trimSpace ⟨l⟩
    some { table := tableName, onLeft := tableName ++ "_id", onRight := "id", columns := cols }

/-- extractEmbeddedRelations: table names of embeds occurring in the select
expression (word prefix immediately followed by an opening parenthesis, with
both parentheses present in the trimmed field). -/
def extractEmbeddedRelations (selectStr : String) : List String :=
  if selectStr = "" then []
  else
    (splitSelectFields selectStr).foldl
      (fun acc f =>
        let g := trimSpace f
        if strContains g '(' && strContains g ')' then
          let w := g.data.takeWhile isWordChar
          if w = [] then acc
          else
            match g.data.drop w.length with
            | '(' :: _ => acc ++ [(⟨w⟩ : String)]
            | _ => acc
        else acc)
      []

/-- The select columns attached to an explicit join: value of key.select,
split on commas without trimming. -/
def joinSelectCols (ps : Params) (key : String) : List String :=
  match ps.find? (fun q => q.fst = key ++ ".select") with
  | some (_, sv :: _) => (splitOnChar ',' sv.data).map fun l => (⟨l⟩ : String)
  | _ => []

/-- The parentheses-notation part of one parseJoins iteration, skipped when the
relation already appears embedded in the select parameter. -/
def parenJoinPart (embedded : List String) (key : String) : List JoinConfig :=
  if strContains key '(' && strContains key ')' then
    let relName : String := ⟨key.data.takeWhile fun c => !(c = '(')⟩
    if embedded.contains relName then []
    else
      match parseParenthesesJoin key with
      | some j => [j]
      | none => []
  else []

/-- Joins contributed by one parameter in parseJoins.  A value of the form
a.b whose first part is a filter operator makes the loop continue, skipping
the parentheses branch as well; an appended explicit join falls through to the
parentheses branch, as in the Go loop body. -/
def joinsForKey (ps : Params) (embedded : List String) (key : String) (vals : List String) :
    List JoinConfig :=
  if strContains key '.' || key = "select" || key = "order" || key = "limit" || key = "offset" then
    []
  else
    match vals with
    | v :: _ =>
      if strContains v '.' && !strContains v '=' then
        match breakAtChar '.' v.data with
        | some (a, b) =>
          if filterOperator ⟨a⟩ then []
          else
            ({ table := key, onLeft := ⟨a⟩, onRight := ⟨b⟩,
               columns := joinSelectCols ps key } : JoinConfig) :: parenJoinPart embedded key
        | none => parenJoinPart embedded key
      else parenJoinPart embedded key
    | [] => parenJoinPart embedded key

/-- parseJoins over all parameters, in list order. -/
def parseJoins (ps : Params) (_mainTable : String) : List JoinConfig :=
  let embedded := extractEmbeddedRelations (getParam ps "select")
  ps.foldl (fun acc p => acc ++ joinsForKey ps embedded p.fst p.snd) []

/-- State of the goqu select dataset as BuildQuery assembles it. -/
structure QueryState where
  table : String
  selectItems : List SelectItem
  whereConds : List FilterCond
  joins : List JoinConfig
  /-- order column and whether the direction is descending -/
  orderBy : Option (String × Bool)
  limitClause : Option Nat
  offsetClause : Option Nat
  deriving DecidableEq

/-- applyJoin: record the left join and append the joined table's columns
(trimmed) to the select list, or table.* when none were listed. -/
def applyJoin (st : QueryState) (j : JoinConfig) : QueryState :=
  let st1 := { st with joins := st.joins ++ [j] }
  if j.columns = [] then
    { st1 with selectItems := st1.selectItems ++ [SelectItem.joinAll j.table] }
  else
    { st1 with
      selectItems :=
        st1.selectItems ++ j.columns.map fun c => SelectItem.joinColumn j.table (trimSpace c) }

/-- ORDER BY handling of BuildQuery: split on the first dot; a second part
equal to "desc" orders descending, anything else ascending. -/
def applyOrder (st : QueryState) (order : String) : QueryState :=
  if order = "" then st
  else
    match breakAtChar '.' order.data with
    | none => { st with orderBy := some (order, false) }
    | some (a, b) => { st with orderBy := some (⟨a⟩, (⟨b⟩ : String) = "desc") }

/-- LIMIT handling of BuildQuery: a nonempty parameter that Atoi accepts is
converted through uint; goqu's SelectDataset.Limit treats a zero limit as
clearing the clause.  An Atoi error leaves the query untouched. -/
def applyLimit (st : QueryState) (limit : String) : QueryState :=
  if limit = "" then st
  else
    match goAtoi limit with
    | some n =>
      if goUint n = 0 then { st with limitClause := none }
      else { st with limitClause := some (goUint n) }
    | none => st

/-- OFFSET handling of BuildQuery: like LIMIT but goqu's SetOffset stores the
value unconditionally. -/
def applyOffset (st : QueryState) (offset : String) : QueryState :=
  if offset = "" then st
  else
    match goAtoi offset with
    | some n => { st with offsetClause := some (goUint n) }
    | none => st

/-- BuildQuery: select list, WHERE filters, dynamic joins, ORDER BY, LIMIT and
OFFSET assembled into the final dataset state.  The function is total: the Go
original returns an SQLQuery unconditionally and has no error result. -/
def buildQuery (db : SchemaLookup) (table : String) (ps : Params) : QueryState :=
  let st0 : QueryState :=
    { table := table
      selectItems := buildSelectItems db table (getParam ps "select")
      whereConds := collectFilters ps
      joins := []
      orderBy := none
      limitClause := none
      offsetClause := none }
  let st1 := (parseJoins ps table).foldl (fun st j => applyJoin st j) st0
  let st2 := applyOrder st1 (getParam ps "order")
  let st3 := applyLimit st2 (getParam ps "limit")
  applyOffset st3 (getParam ps "offset")

/-- Tenant-scoping statement built inside HandleSelect: the X-Tenant-ID header
value is interpolated into the search_path statement wrapped in double quotes,
with no validation. -/
def setSearchPathSQL (tenant : String) : String :=
  "SET LOCAL search_path TO \"" ++ tenant ++ "\""

/-- Schema oracle whose every lookup succeeds and reports the column absent. -/
def dbNo : SchemaLookup := fun _ _ => some false

/-- Schema oracle whose every lookup fails with an error. -/
def dbNone : SchemaLookup := fun _ _ => none

/-- Schema oracle for the movies/directors example: movies has a director_id
column, every other lookup succeeds and reports the column absent. -/
def dbMoviesDirectors : SchemaLookup := fun t c =>
  if t = "movies" && c = "director_id" then some true else some false

/-! Helper lemmas. -/

theorem stringEta (s : String) : (⟨s.data⟩ : String) = s := by
  cases s
  rfl

theorem strDataAppend (a b : String) : (a ++ b).data = a.data ++ b.data := by
  cases a
  cases b
  rfl

theorem joinCommaL_cons (a : List Char) (L : List (List Char)) (h : L ≠ []) :
    joinCommaL (a :: L) = a ++ ',' :: joinCommaL L := by
  cases L with
  | nil => exact absurd rfl h
  | cons b t => rfl

theorem splitFieldsAux_ne_nil :
    ∀ (rest cur : List Char) (depth : Nat), rest ≠ [] ∨ cur ≠ [] →
      splitFieldsAux rest cur depth ≠ [] := by
  intro rest
  induction rest with
  | nil =>
    intro cur depth h
    rcases h with h | h
    · exact absurd rfl h
    · simp [splitFieldsAux, h]
  | cons r rest ih =>
    intro cur depth _
    by_cases hc : r = ',' ∧ depth = 0
    · simp [splitFieldsAux, hc]
    · simp only [splitFieldsAux, if_neg hc]
      exact ih (cur ++ [r]) (stepDepth r depth) (Or.inr (by simp))

theorem joinCommaL_splitFieldsAux :
    ∀ (rest cur : List Char) (depth : Nat), endsTopComma rest depth = false →
      joinCommaL (splitFieldsAux rest cur depth) = cur ++ rest := by
  intro rest
  induction rest with
  | nil =>
    intro cur depth _
    by_cases hc : cur = []
    · simp [splitFieldsAux, hc, joinCommaL]
    · simp [splitFieldsAux, hc, joinCommaL]
  | cons r rest ih =>
    intro cur depth h
    cases rest with
    | nil =>
      have hne : ¬(r = ',' ∧ depth = 0) := by
        simpa [endsTopComma] using h
      simp only [splitFieldsAux, if_neg hne]
      simp [splitFieldsAux, joinCommaL]
    | cons s rest2 =>
      have h2 : endsTopComma (s :: rest2) (stepDepth r depth) = false := h
      by_cases hc : r = ',' ∧ depth = 0
      · obtain ⟨hr, hd⟩ := hc
        subst hr
        subst hd
        have hne := splitFieldsAux_ne_nil (s :: rest2) [] 0 (Or.inl (by simp))
        have hstep : stepDepth ',' 0 = 0 := rfl
        rw [hstep] at h2
        show joinCommaL (cur :: splitFieldsAux (s :: rest2) [] 0) = cur ++ ',' :: s :: rest2
        rw [joinCommaL_cons _ _ hne, ih [] 0 h2]
        simp
      · rw [show splitFieldsAux (r :: s :: rest2) cur depth =
              if r = ',' ∧ depth = 0 then cur :: splitFieldsAux (s :: rest2) [] 0
              else splitFieldsAux (s :: rest2) (cur ++ [r]) (stepDepth r depth) from rfl,
            if_neg hc, ih (cur ++ [r]) (stepDepth r depth) h2]
        simp

theorem joinWithComma_map_mk :
    ∀ l : List (List Char),
      joinWithComma (l.map fun c => (⟨c⟩ : String)) = (⟨joinCommaL l⟩ : String) := by
  intro l
  induction l with
  | nil => rfl
  | cons x t ih =>
    cases t with
    | nil => rfl
    | cons y t2 =>
      show (⟨x⟩ : String) ++ "," ++ joinWithComma ((y :: t2).map fun c => (⟨c⟩ : String)) = _
      rw [ih]
      show String.mk ((x ++ [',']) ++ joinCommaL (y :: t2)) =
        String.mk (x ++ ',' :: joinCommaL (y :: t2))
      rw [List.append_assoc]
      rfl

theorem breakAtChar_first (sep : Char) :
    ∀ (a b : List Char), sep ∉ a → breakAtChar sep (a ++ sep :: b) = some (a, b) := by
  intro a
  induction a with
  | nil =>
    intro b _
    simp [breakAtChar]
  | cons c a ih =>
    intro b h
    have hc : ¬c = sep := fun e => h (by simp [e])
    simp [breakAtChar, hc, ih b fun m => h (List.mem_cons_of_mem _ m)]

theorem applyJoin_whereConds (st : QueryState) (j : JoinConfig) :
    (applyJoin st j).whereConds = st.whereConds := by
  unfold applyJoin
  by_cases h : j.columns = [] <;> simp [h]

theorem applyOrder_whereConds (st : QueryState) (o : String) :
    (applyOrder st o).whereConds = st.whereConds := by
  unfold applyOrder
  by_cases h : o = ""
  · simp [h]
  · rw [if_neg h]
    rcases hb : breakAtChar '.' o.data with _ | ⟨a, b⟩ <;> simp [hb]

theorem applyLimit_whereConds (st : QueryState) (l : String) :
    (applyLimit st l).whereConds = st.whereConds := by
  unfold applyLimit
  by_cases h : l = ""
  · simp [h]
  · rw [if_neg h]
    rcases hb : goAtoi l with _ | n
    · simp [hb]
    · by_cases hz : goUint n = 0 <;> simp [hb, hz]

theorem applyOffset_whereConds (st : QueryState) (o : String) :
    (applyOffset st o).whereConds = st.whereConds := by
  unfold applyOffset
  by_cases h : o = ""
  · simp [h]
  · rw [if_neg h]
    rcases hb : goAtoi o with _ | n <;> simp [hb]

theorem foldl_applyJoin_whereConds (js : List JoinConfig) (st : QueryState) :
    (js.foldl (fun s j => applyJoin s j) st).whereConds = st.whereConds := by
  induction js generalizing st with
  | nil => rfl
  | cons j js ih => rw [List.foldl_cons, ih, applyJoin_whereConds]

theorem buildQuery_whereConds (db : SchemaLookup) (t : String) (ps : Params) :
    (buildQuery db t ps).whereConds = collectFilters ps := by
  simp only [buildQuery]
  rw [applyOffset_whereConds, applyLimit_whereConds, applyOrder_whereConds,
    foldl_applyJoin_whereConds]

/-! Claim theorems. -/

/-- C10: for every input string that does not end with a comma at parenthesis
depth zero, joining the fields returned by splitSelectFields with a comma
reproduces the input exactly: the splitter only drops depth-zero separator
commas and preserves every other character in order. -/
theorem c10_split_join_roundtrip (s : String) (h : endsTopComma s.data 0 = false) :
    joinWithComma (splitSelectFields s) = s := by
  unfold splitSelectFields
  rw [joinWithComma_map_mk, joinCommaL_splitFieldsAux s.data [] 0 h]
  cases s
  rfl

theorem c10_split_join_roundtrip_witness :
    endsTopComma "id,content,stats(id,views)".data 0 = false ∧
      joinWithComma (splitSelectFields "id,content,stats(id,views)") =
        "id,content,stats(id,views)" :=
  ⟨by decide, c10_split_join_roundtrip "id,content,stats(id,views)" (by decide)⟩

/-- C1 (refuting the claim on the code): the anchored embed regexp requires the
word prefix to be immediately followed by the opening parenthesis, so a field
carrying the !inner modifier never matches; BuildQuery compiles
posts!inner(id,content) as a plain literal column for every schema oracle and
every root table, never as an inner embed. -/
theorem c1_inner_field_compiled_as_plain_column (db : SchemaLookup) (t : String) :
    compileSelectField db t "posts!inner(id,content)" =
      SelectItem.column "posts!inner(id,content)" := rfl

/-- C2 (refuting the claim on the code): only the top-level split tracks
parenthesis depth.  The child list of an embed is split by a plain comma split,
so the child list id,content,stats(id,views) yields four comma-split fragments
(where the depth-aware splitter would keep stats(id,views) as one field), and
the full pipeline rejoins the fragments into a flat SQL column list instead of
compiling a nested embed. -/
theorem c2_nested_child_list_comma_split :
    childCols "id,content,stats(id,views)" = ["id", "content", "stats(id", "views)"] ∧
      splitSelectFields "id,content,stats(id,views)" = ["id", "content", "stats(id,views)"] ∧
      (buildQuery dbNo "authors" [("select", ["posts(id,content,stats(id,views))"])]).selectItems =
        [SelectItem.subquery
          "(SELECT COALESCE(json_agg(row_to_json(arr)), \x27[]\x27::json) FROM (SELECT id,content,stats(id,views) FROM posts WHERE posts.author_id = authors.id) arr) AS posts"] :=
  ⟨rfl, rfl, rfl⟩

/-- C3 (refuting the claim on the code): for a select expression with an inner
embed, BuildQuery adds no existence predicate to the WHERE clause for any
schema oracle: the WHERE list stays empty, no join is produced, and the inner
embed is compiled as a plain literal column. -/
theorem c3_inner_adds_no_where_predicate (db : SchemaLookup) :
    (buildQuery db "authors"
        [("select", ["id,first_name,posts!inner(id,content)"])]).whereConds = [] ∧
      (buildQuery db "authors"
        [("select", ["id,first_name,posts!inner(id,content)"])]).joins = [] ∧
      (buildQuery db "authors"
        [("select", ["id,first_name,posts!inner(id,content)"])]).selectItems =
        [SelectItem.column "id", SelectItem.column "first_name",
          SelectItem.column "posts!inner(id,content)"] :=
  ⟨rfl, rfl, rfl⟩

/-- C4: whenever a select field parses as an embed, relationship resolution
singularizes both table names and probes the parent table for a column named
related_singular_id: if the (successful) lookup reports it present the embed
compiles as the ManyToOne scalar subquery, otherwise as the OneToMany array
subquery joined on parent_singular_id in the related table. -/
theorem c4_relationship_resolution (db : SchemaLookup) (t f rel mid : String)
    (h : parseEmbedField f = some (rel, mid)) :
    compileSelectField db t f =
      SelectItem.subquery
        (if columnExists db t (singularize rel ++ "_id") then
          manyToOneSub t rel (singularize rel ++ "_id")
        else oneToManySub (colListOf (childCols mid)) t rel (singularize t ++ "_id")) := by
  unfold compileSelectField
  rw [h]
  rfl

theorem c4_relationship_resolution_witness :
    (parseEmbedField "directors(id,name)" = some ("directors", "id,name") ∧
      compileSelectField dbMoviesDirectors "movies" "directors(id,name)" =
        SelectItem.subquery
          "(SELECT row_to_json(directors.*) FROM directors WHERE directors.id = movies.director_id LIMIT 1) AS directors") ∧
    (parseEmbedField "posts(id,content)" = some ("posts", "id,content") ∧
      compileSelectField dbNo "authors" "posts(id,content)" =
        SelectItem.subquery
          "(SELECT COALESCE(json_agg(row_to_json(arr)), \x27[]\x27::json) FROM (SELECT id,content FROM posts WHERE posts.author_id = authors.id) arr) AS posts") :=
  ⟨⟨by decide, by
      rw [c4_relationship_resolution dbMoviesDirectors "movies" "directors(id,name)" "directors"
          "id,name" (by decide)]
      rfl⟩,
    ⟨by decide, by
      rw [c4_relationship_resolution dbNo "authors" "posts(id,content)" "posts" "id,content"
          (by decide)]
      rfl⟩⟩

/-- C5 (refuting the claim on the code): the ManyToOne scalar subquery is built
without consulting the listed child columns at all: two embeds of the same
related table with different explicit column lists compile to the identical
whole-row subquery row_to_json(directors.*). -/
theorem c5_counterexample :
    compileSelectField dbMoviesDirectors "movies" "directors(id,name)" =
        SelectItem.subquery
          "(SELECT row_to_json(directors.*) FROM directors WHERE directors.id = movies.director_id LIMIT 1) AS directors" ∧
      compileSelectField dbMoviesDirectors "movies" "directors(foo,bar)" =
        SelectItem.subquery
          "(SELECT row_to_json(directors.*) FROM directors WHERE directors.id = movies.director_id LIMIT 1) AS directors" :=
  ⟨rfl, rfl⟩

/-- C5 (amended): for every ManyToOne embed the emitted scalar subquery
projects the related row's whole column set via row_to_json(related.*),
independent of the listed child columns; the scalar LIMIT 1 subquery yields
NULL when no related row matches. -/
theorem c5_many_to_one_whole_row (db : SchemaLookup) (t f rel mid : String)
    (h1 : parseEmbedField f = some (rel, mid))
    (h2 : columnExists db t (singularize rel ++ "_id") = true) :
    compileSelectField db t f =
      SelectItem.subquery (manyToOneSub t rel (singularize rel ++ "_id")) := by
  unfold compileSelectField
  rw [h1]
  unfold compileEmbed
  simp only [h2, if_true]

theorem c5_many_to_one_whole_row_witness :
    parseEmbedField "directors(a,b)" = some ("directors", "a,b") ∧
      columnExists dbMoviesDirectors "movies" (singularize "directors" ++ "_id") = true ∧
      compileSelectField dbMoviesDirectors "movies" "directors(a,b)" =
        SelectItem.subquery (manyToOneSub "movies" "directors" (singularize "directors" ++ "_id")) :=
  ⟨by decide, by decide,
    c5_many_to_one_whole_row dbMoviesDirectors "movies" "directors(a,b)" "directors" "a,b"
      (by decide) (by decide)⟩

/-- C6 (refuting the claim on the code): no identifier validation exists.  A
tenant identifier containing a double quote and SQL statements is interpolated
verbatim into the search_path statement, and a root table name containing SQL
statements is interpolated verbatim into the embed subquery; both compile
without any rejection. -/
theorem c6_counterexample :
    setSearchPathSQL "tenant\"; DROP SCHEMA public; --" =
        "SET LOCAL search_path TO \"tenant\"; DROP SCHEMA public; --\"" ∧
      (buildQuery dbNone "authors; DROP TABLE users"
          [("select", ["directors(id)"])]).selectItems =
        [SelectItem.subquery
          "(SELECT COALESCE(json_agg(row_to_json(arr)), \x27[]\x27::json) FROM (SELECT id FROM directors WHERE directors.authors; DROP TABLE user_id = authors; DROP TABLE users.id) arr) AS directors"] :=
  ⟨rfl, rfl⟩

/-- C6 (amended): neither the compiler nor the handler validates identifiers
and no IdentifierRejected error exists: for every string used as tenant the
search_path statement embeds it raw between double quotes, and for every string
used as root table BuildQuery compiles successfully and splices the table text
verbatim into the correlated subquery. -/
theorem c6_no_identifier_validation (tenant t : String) :
    setSearchPathSQL tenant = "SET LOCAL search_path TO \"" ++ tenant ++ "\"" ∧
      (buildQuery dbNone t [("select", ["directors(id)"])]).selectItems =
        [SelectItem.subquery (oneToManySub "id" t "directors" (singularize t ++ "_id"))] :=
  ⟨rfl, rfl⟩

/-- C7 (refuting the claim on the code): limit=-1 does not fail; Atoi accepts
it and the uint conversion wraps it to 18446744073709551615, which becomes the
limit clause, while offset=abc is silently ignored.  No InvalidPagination
error exists (BuildQuery is total). -/
theorem c7_counterexample :
    (buildQuery dbNo "posts" [("limit", ["-1"]), ("offset", ["abc"])]).limitClause =
        some 18446744073709551615 ∧
      (buildQuery dbNo "posts" [("limit", ["-1"]), ("offset", ["abc"])]).offsetClause = none :=
  ⟨rfl, rfl⟩

/-- C7 (amended): pagination parameters are never rejected: a value Atoi does
not accept leaves the corresponding clause unchanged, and an accepted value
(negative ones included) is converted through 64-bit uint wraparound, goqu
clearing the limit when the converted value is zero. -/
theorem c7_silent_pagination (st : QueryState) (lim off : String) :
    (applyLimit st lim).limitClause =
        (match goAtoi lim with
          | none => st.limitClause
          | some n => if goUint n = 0 then none else some (goUint n)) ∧
      (applyOffset st off).offsetClause =
        (match goAtoi off with
          | none => st.offsetClause
          | some n => some (goUint n)) := by
  constructor
  · unfold applyLimit
    by_cases hl : lim = ""
    · subst hl
      rfl
    · rw [if_neg hl]
      rcases hg : goAtoi lim with _ | n
      · simp
      · by_cases hz : goUint n = 0 <;> simp [hz]
  · unfold applyOffset
    by_cases ho : off = ""
    · subst ho
      rfl
    · rw [if_neg ho]
      rcases hg : goAtoi off with _ | n <;> simp

/-- C8 (refuting the claim on the code): a filter whose operator is outside the
supported set does not fail compilation and adds no WHERE predicate; the
parameter is even reinterpreted by the join pass as an explicit join
specification, appending a left join and the joined table's star column. -/
theorem c8_counterexample :
    (buildQuery dbNo "posts" [("views", ["banana.3"])]).whereConds = [] ∧
      (buildQuery dbNo "posts" [("views", ["banana.3"])]).joins =
        [{ table := "views", onLeft := "banana", onRight := "3", columns := [] }] ∧
      (buildQuery dbNo "posts" [("views", ["banana.3"])]).selectItems =
        [SelectItem.column "*", SelectItem.joinAll "views"] :=
  ⟨rfl, rfl, rfl⟩

/-- C8 (amended): for every operator outside {eq,gt,lt,gte,lte,like,in} (the
operator switch has no default case), a filter parameter value operator.value
contributes no WHERE condition and raises no error: the compiled WHERE list is
empty. -/
theorem c8_unknown_operator_dropped (op v : String) (h1 : '.' ∉ op.data)
    (h2 : filterCondFor "views" op v = none) :
    (buildQuery dbNo "posts" [("views", [op ++ "." ++ v])]).whereConds = [] := by
  rw [buildQuery_whereConds]
  unfold collectFilters
  simp only [List.foldl_cons, List.foldl_nil]
  have hd : (op ++ "." ++ v).data = op.data ++ '.' :: v.data := by
    rw [strDataAppend, strDataAppend]
    simp
  have hskip : skipFilterKey [("views", [op ++ "." ++ v])] "views" = false := by
    unfold skipFilterKey isRelatedResource
    simp [strContains, goHasPre, listStartsWith, hd]
  rw [hskip]
  simp only [Bool.false_eq_true, if_false]
  rw [hd, breakAtChar_first '.' op.data v.data h1]
  simp only [stringEta]
  rw [h2]

theorem c8_unknown_operator_dropped_witness :
    '.' ∉ "banana".data ∧ filterCondFor "views" "banana" "3" = none ∧
      (buildQuery dbNo "posts" [("views", ["banana" ++ "." ++ "3"])]).whereConds = [] :=
  ⟨by decide, by decide, c8_unknown_operator_dropped "banana" "3" (by decide) (by decide)⟩

/-- C9 (refuting the claim on the code): when every metadata lookup fails,
columnExists absorbs the error and reports false, so the embed silently
compiles as the fallback OneToMany cardinality instead of surfacing a
compilation error. -/
theorem c9_counterexample :
    (buildQuery dbNone "movies" [("select", ["directors(id,name)"])]).selectItems =
      [SelectItem.subquery
        "(SELECT COALESCE(json_agg(row_to_json(arr)), \x27[]\x27::json) FROM (SELECT id,name FROM directors WHERE directors.movy_id = movies.id) arr) AS directors"] :=
  rfl

/-- C9 (amended): a failed metadata lookup is silently absorbed: columnExists
returns false on a lookup error, so an embed whose foreign-key probe errors is
compiled as the fallback OneToMany subquery; no compilation error reaches the
caller because BuildQuery has no error result at all. -/
theorem c9_lookup_error_falls_back (db : SchemaLookup) (t f rel mid : String)
    (h1 : parseEmbedField f = some (rel, mid))
    (h2 : db t (singularize rel ++ "_id") = none) :
    compileSelectField db t f =
      SelectItem.subquery
        (oneToManySub (colListOf (childCols mid)) t rel (singularize t ++ "_id")) := by
  have hce : columnExists db t (singularize rel ++ "_id") = false := by
    unfold columnExists
    rw [h2]
  unfold compileSelectField
  rw [h1]
  unfold compileEmbed
  simp only [hce, Bool.false_eq_true, if_false]

theorem c9_lookup_error_falls_back_witness :
    parseEmbedField "directors(id,name)" = some ("directors", "id,name") ∧
      dbNone "movies" (singularize "directors" ++ "_id") = none ∧
      compileSelectField dbNone "movies" "directors(id,name)" =
        SelectItem.subquery
          (oneToManySub (colListOf (childCols "id,name")) "movies" "directors"
            (singularize "movies" ++ "_id")) :=
  ⟨by decide, rfl,
    c9_lookup_error_falls_back dbNone "movies" "directors(id,name)" "directors" "id,name"
      (by decide) rfl⟩

end TenantRest
